import Mathlib

/-!
Verification development for `classifier_224n.py`, a BERT-based citation /
sentiment score regressor.  The Python source is shallowly embedded below:
pure computations become Lean functions over `ℚ` (the numeric values the
program manipulates are real-valued; we model them exactly), the stateful
training loop becomes an explicit event trace, and fallible operations
return `Except`.  Line numbers in comments refer to `classifier_224n.py`.
-/

namespace Classifier224n

/-! ## Checkpoint decision (train, lines 290 and 329–331)

`best_dev_acc = 0`; after each epoch, `if dev_corr > best_dev_acc:
best_dev_acc = dev_corr; save_model(...)`.  We model the sequence of
held-out correlations as a list of rationals and record, per epoch,
whether a snapshot was persisted. -/

/-- One checkpoint decision: lines 329–331.  Returns (persisted?, new best). -/
def checkpointStep (best c : ℚ) : Bool × ℚ :=
  if c > best then (true, c) else (false, best)

/-- Persistence flags across the per-epoch dev correlations, threading the
best-so-far value exactly as the training loop does. -/
def checkpointTrace (best : ℚ) : List ℚ → List Bool
  | [] => []
  | c :: cs => (checkpointStep best c).1 :: checkpointTrace (checkpointStep best c).2 cs

/-- Initial best-so-far correlation: line 290, `best_dev_acc = 0`. -/
def best_dev_acc : ℚ := 0

/-- Spec-side predicate (claim wording): `c_i` is a strict running maximum of
the sequence `c_1..c_N` itself, i.e. strictly exceeds every earlier value. -/
def specStrictRunMaxFlags (cs : List ℚ) : List Bool :=
  cs.mapIdx (fun i c => decide (∀ j, (h : j < cs.length) → j < i → cs.get ⟨j, h⟩ < c))

/-- Best value over the first `i` correlations, seeded with the sentinel. -/
def prefixBest (seed : ℚ) (cs : List ℚ) (i : ℕ) : ℚ :=
  (cs.take i).foldl max seed

/-! ## Training-loop event trace (train, lines 292–333)

The loop first evaluates both splits (lines 292–293, results only printed),
then per epoch: trains one epoch, evaluates both splits, and conditionally
saves a checkpoint.  Correlations come out of the network, so the trace is
parameterised by the pre-epoch correlations and the per-epoch dev
correlations. -/

inductive TrainEvent where
  | evalTrain : TrainEvent
  | evalDev : TrainEvent
  | epochTrained : ℕ → TrainEvent
  | saveCheckpoint : TrainEvent
  deriving DecidableEq, Repr

/-- Events of one epoch (lines 297–333): train, evaluate both splits, then
save iff the fresh dev correlation beats the running best. -/
def epochEvents (epoch : ℕ) (c best : ℚ) : List TrainEvent :=
  [TrainEvent.epochTrained epoch, TrainEvent.evalTrain, TrainEvent.evalDev] ++
    (if c > best then [TrainEvent.saveCheckpoint] else [])

/-- The epoch loop, threading the best-so-far dev correlation. -/
def epochLoop (epoch : ℕ) (best : ℚ) : List ℚ → List TrainEvent
  | [] => []
  | c :: cs => epochEvents epoch c best ++ epochLoop (epoch + 1) (checkpointStep best c).2 cs

/-- Full trace of `train` from line 292 on.  The two pre-epoch evaluation
results (`preTrainCorr`, `preDevCorr`, lines 292–293) are bound by the code
but only printed; they are inputs here so that independence from them is a
statement, not a triviality of the model. -/
def trainTrace (preTrainCorr preDevCorr : ℚ) (devCorrs : List ℚ) : List TrainEvent :=
  [TrainEvent.evalTrain, TrainEvent.evalDev] ++ epochLoop 0 best_dev_acc devCorrs

/-! ## Evaluator (`model_eval`, lines 175–213)

`model_eval` switches the model to eval mode (line 176), then for every
batch adds `F.mse_loss(logits.flatten(), labels.flatten()) / args.batch_size`
to a running `loss` (line 191) and extends the prediction / label / id
accumulators.  The returned loss is that running value — it is never divided
by the number of batches. -/

/-- `F.mse_loss` with the default `mean` reduction: the mean of the
elementwise squared differences. -/
def mse_loss (pred target : List ℚ) : ℚ :=
  (List.zipWith (fun p t => (p - t) ^ 2) pred target).sum / pred.length

/-- One batch as seen by `model_eval`: the flattened model outputs, the
flattened labels, and the passthrough ids (`paper_ids`). -/
structure EvalBatch where
  preds : List ℚ
  labels : List ℚ
  ids : List String
  deriving Repr

/-- The abstract model state the Evaluator can touch: the parameter vector
and the dropout-active (`training`) flag toggled by `model.eval()` /
`model.train()`. -/
structure ModelState where
  params : List ℚ
  training : Bool
  deriving Repr, DecidableEq

/-- Optimizer state (opaque to the Evaluator). -/
structure OptState where
  moments : List ℚ
  deriving Repr, DecidableEq

/-- Loop body of `model_eval` (lines 182–200), threading the model state the
forward pass reads: running loss, accumulated predictions, accumulated ids.
A forward pass in inference mode reads the parameters and writes nothing. -/
def evalStep (batchSize : ℚ) (acc : ModelState × ℚ × List ℚ × List String) (b : EvalBatch) :
    ModelState × ℚ × List ℚ × List String :=
  (acc.1, acc.2.1 + mse_loss b.preds b.labels / batchSize,
   acc.2.2.1 ++ b.preds, acc.2.2.2 ++ b.ids)

/-- `model_eval`: sets the training flag to `false` (line 176, `model.eval()`),
folds the accumulation over all batches, and returns
`(loss, y_pred, sent_ids)` together with the post-call model and optimizer
state.  (The correlation, lines 205–206, is modelled separately by
`corrcoef10`.)  No statement of the body touches `m.params` or `o`. -/
def model_eval (batchSize : ℚ) (batches : List EvalBatch) (m : ModelState) (o : OptState) :
    (ℚ × List ℚ × List String) × ModelState × OptState :=
  ((batches.foldl (evalStep batchSize) ({ m with training := false }, 0, [], [])).2,
   (batches.foldl (evalStep batchSize) ({ m with training := false }, 0, [], [])).1, o)

/-- The loss component `model_eval` returns. -/
def evalLoss (batchSize : ℚ) (batches : List EvalBatch) : ℚ :=
  (model_eval batchSize batches { params := [], training := false }
    { moments := [] }).1.1

/-- Spec-side value (claim wording): the mean over the pass's batches of the
per-batch `MSE / batch_size`. -/
def specMeanLoss (batchSize : ℚ) (batches : List EvalBatch) : ℚ :=
  (batches.map (fun b => mse_loss b.preds b.labels / batchSize)).sum / batches.length

/-! ## Pearson correlation (`model_eval`, lines 205–206)

`np.corrcoef(y_pred, y_true)[1][0]` is the sample covariance of the two
sequences divided by the product of their standard deviations.  When either
sequence has zero variance the denominator is `0` and numpy yields `NaN`
(`0/0`); we model the result as `Option ℝ`, with `none` standing for `NaN`. -/

/-- Arithmetic mean of a sequence. -/
noncomputable def listMean (xs : List ℝ) : ℝ := xs.sum / xs.length

/-- The sequence re-centred at its mean. -/
noncomputable def centered (xs : List ℝ) : List ℝ := xs.map (fun a => a - listMean xs)

/-- Sum of pairwise products of the centred sequences (covariance and
variances up to the common normalisation, which cancels in the quotient). -/
noncomputable def sprod (xs ys : List ℝ) : ℝ :=
  (List.zipWith (fun a b => a * b) (centered xs) (centered ys)).sum

open Classical in
/-- Entry `[1][0]` of `np.corrcoef(x, y)`:
`cov(x,y) / (std x * std y)`, with `none` modelling the `NaN` produced when
either variance is zero. -/
noncomputable def corrcoef10 (x y : List ℝ) : Option ℝ :=
  if sprod x x = 0 ∨ sprod y y = 0 then none
  else some (sprod x y / (Real.sqrt (sprod x x) * Real.sqrt (sprod y y)))

/-! ## Batch padding (`CitationDataset.pad_data` lines 84–94,
`CitationTestDataset.pad_data` lines 122–130)

Both `pad_data` methods delegate padding to
`self.tokenizer(sents, return_tensors='pt', padding=True, truncation=True)`
and return its `input_ids` and `attention_mask` unchanged (wrapped as
tensors). -/

/-- Modelled from the spec: the tokenizer (external collaborator, file
`tokenizer.py`, not part of this repository) "accepts a list of raw strings,
returns token ids and attention mask padded to a uniform length for that
call" (§6), where with `padding=True` that length is "the longest member of
the current batch rather than a global fixed length" (§Glossary, §4.2), the
"attention mask marks real tokens 1 and padding 0" (§4.2) and "padded
positions of `token_ids` use the designated pad id" (§8).  We abstract the
text-to-token-id step (out of scope per §1) as the given per-example token
lists and model the padding step. -/
def tokenizerPad (padId : ℕ) (toks : List (List ℕ)) : List (List ℕ) × List (List ℕ) :=
  (toks.map (fun t => t ++ List.replicate ((toks.map List.length).foldl max 0 - t.length) padId),
   toks.map (fun t => List.replicate t.length 1 ++
     List.replicate ((toks.map List.length).foldl max 0 - t.length) 0))

/-- The padded width of a batch: the longest token sequence in it. -/
def batchMaxLen (toks : List (List ℕ)) : ℕ := (toks.map List.length).foldl max 0

/-- `pad_data` of both dataset classes: returns the tokenizer's `input_ids`
and `attention_mask` unchanged. -/
def pad_data (padId : ℕ) (toks : List (List ℕ)) : List (List ℕ) × List (List ℕ) :=
  tokenizerPad padId toks

/-! ## Record loading (`load_data`, lines 146–171)

Rows come from `csv.DictReader`; a header without a required column makes
`record[...]` raise `KeyError`, and a non-integer `sentiment` makes
`int(...)` raise `ValueError` — either aborts the load with no partial
result.  Missing fields are modelled by `Option` and the abort by `Except`. -/

/-- A raw TSV row: each required column either present (with its string
value) or absent. -/
structure RawRecord where
  sentence : Option String
  sentiment : Option String
  recId : Option String
  deriving Repr

inductive Mode where
  | train : Mode
  | valid : Mode
  | test : Mode
  deriving DecidableEq, Repr

/-- A single abstract loading error standing for the Python `KeyError` /
`ValueError` that aborts `load_data` (the spec's `MalformedRecordError`). -/
inductive LoadError where
  | malformedRecord : LoadError
  deriving DecidableEq, Repr

/-- Digits of a non-empty all-digit character list, as a number. -/
def digitsVal : List Char → Option ℕ
  | [] => none
  | cs => if cs.all Char.isDigit then
      some (cs.foldl (fun n c => n * 10 + (c.toNat - 48)) 0) else none

/-- Python `int(s)` on an already-stripped string: an optional sign followed
by at least one digit; anything else raises `ValueError` (modelled `none`). -/
def pyInt (s : String) : Option ℤ :=
  match s.data with
  | '-' :: rest => (digitsVal rest).map (fun n => -(n : ℤ))
  | '+' :: rest => (digitsVal rest).map (fun n => (n : ℤ))
  | cs => (digitsVal cs).map (fun n => (n : ℤ))

/-- A successfully loaded train/valid record: `(sentence, label, id)`
(lines 152–165). -/
structure LabeledRec where
  sent : String
  label : ℤ
  sentId : String
  deriving Repr, DecidableEq

/-- A successfully loaded test record: `(sentence, id)` (lines 152–154). -/
structure TestRec where
  sent : String
  sentId : String
  deriving Repr, DecidableEq

/-- Loading one row in train/valid mode (lines 157–165):
`record['sentence'].lower().strip()`, `record['id'].lower().strip()`,
`int(record['sentiment'].strip())`; a missing column (`KeyError`) or an
unparseable label (`ValueError`) aborts. -/
def loadRow (r : RawRecord) : Except LoadError LabeledRec :=
  match r.sentence, r.recId, r.sentiment with
  | some s, some i, some rawLab =>
    match pyInt rawLab.trim with
    | some lab =>
      Except.ok { sent := s.toLower.trim, label := lab, sentId := i.toLower.trim }
    | none => Except.error LoadError.malformedRecord
  | _, _, _ => Except.error LoadError.malformedRecord

/-- Loading one row in test mode (lines 151–154): only `sentence` and `id`
are read; `sentiment` is never touched. -/
def loadRowTest (r : RawRecord) : Except LoadError TestRec :=
  match r.sentence, r.recId with
  | some s, some i => Except.ok { sent := s.toLower.trim, sentId := i.toLower.trim }
  | _, _ => Except.error LoadError.malformedRecord

/-- The loading loop in train/valid mode: the first bad row aborts the whole
load with no partial result; on success all rows are returned in order. -/
def load_data : List RawRecord → Except LoadError (List LabeledRec)
  | [] => Except.ok []
  | r :: rs =>
    match loadRow r with
    | Except.error e => Except.error e
    | Except.ok p =>
      match load_data rs with
      | Except.error e => Except.error e
      | Except.ok ps => Except.ok (p :: ps)

/-- The loading loop in test mode. -/
def load_data_test : List RawRecord → Except LoadError (List TestRec)
  | [] => Except.ok []
  | r :: rs =>
    match loadRowTest r with
    | Except.error e => Except.error e
    | Except.ok p =>
      match load_data_test rs with
      | Except.error e => Except.error e
      | Except.ok ps => Except.ok (p :: ps)

/-- The label-index build of lines 163–164: number of distinct labels in
first-seen order (returned as `num_labels` for a train-mode load). -/
def numLabels (ls : List ℤ) : ℕ :=
  (ls.foldl (fun seen l => if l ∈ seen then seen else seen ++ [l]) []).length

/-! ## Hard-coded data slices (train lines 265–266, test lines 347 and 352) -/

/-- Line 265: `train_data = train_data[:100]`. -/
def trainSlice {α : Type} (l : List α) : List α := l.take 100

/-- Line 266: `dev_data = dev_data[10000:10000+10]`. -/
def devHeldOutSlice {α : Type} (l : List α) : List α := (l.drop 10000).take 10

/-- Line 347: `dev_data = dev_data[:20]`. -/
def testDevSlice {α : Type} (l : List α) : List α := l.take 20

/-- Line 352: `test_data = test_data[:20]`. -/
def testTestSlice {α : Type} (l : List α) : List α := l.take 20

/-! ## Scoring model construction and trainability
(`BertCitationClassifier.__init__`, lines 38–52)

Lines 43–48: `assert config.fine_tune_mode in ["last-linear-layer",
"full-model"]`, then every BERT parameter gets `requires_grad = False` in
`last-linear-layer` mode and `True` in `full-model` mode.  The head
(`nn.Dropout` has no parameters; `nn.Linear(hidden_size, 1)` has a weight
vector and a bias) is freshly created with the PyTorch default
`requires_grad = True`.  Autograd writes a gradient only into parameters
with `requires_grad = True`; a frozen parameter's gradient stays absent
(magnitude zero, modelled as the value `0`). -/

/-- The two admitted fine-tune modes (the spec's `head-only` is the code's
`last-linear-layer`); the `assert` on line 43 rules everything else out. -/
inductive FineTuneMode where
  | lastLinearLayer : FineTuneMode
  | fullModel : FineTuneMode
  deriving DecidableEq, Repr

/-- One parameter: its value, its gradient-tracking flag, and its
accumulated gradient (0 while no gradient has been written). -/
structure Param where
  val : ℚ
  requiresGrad : Bool
  grad : ℚ
  deriving Repr, DecidableEq

/-- The flag the init loop (lines 44–48) assigns to every BERT parameter. -/
def bertGradFlag : FineTuneMode → Bool
  | FineTuneMode.lastLinearLayer => false
  | FineTuneMode.fullModel => true

/-- The model: encoder parameters plus the head (`classifier`) weight vector
and bias. -/
structure Classifier where
  bertParams : List Param
  headWeight : List Param
  headBias : Param
  deriving Repr

/-- `BertCitationClassifier.__init__`: loads pretrained encoder values,
overwrites every encoder parameter's `requires_grad` per the mode, and
creates the head with `requires_grad = True` and no gradients yet. -/
def initClassifier (mode : FineTuneMode) (bertVals wVals : List ℚ) (bVal : ℚ) : Classifier :=
  { bertParams := bertVals.map (fun v => { val := v, requiresGrad := bertGradFlag mode, grad := 0 }),
    headWeight := wVals.map (fun v => { val := v, requiresGrad := true, grad := 0 }),
    headBias := { val := bVal, requiresGrad := true, grad := 0 } }

/-- Dot product. -/
def dotProd (xs ys : List ℚ) : ℚ := (List.zipWith (fun a b => a * b) xs ys).sum

/-- `forward` (lines 55–68) restricted to the head: for each example's
(post-dropout) pooled representation `row`, output `w · row + b`. -/
def headForward (w : List ℚ) (b : ℚ) (x : List (List ℚ)) : List ℚ :=
  x.map (fun row => dotProd w row + b)

/-- Gradient of `F.mse_loss(preds, ys) / batchSize` (training loss, line
316) with respect to the head bias: `(2 / (n * batchSize)) * Σ (p_k - y_k)`. -/
def biasGrad (batchSize : ℚ) (preds ys : List ℚ) : ℚ :=
  2 / (preds.length * batchSize) * (List.zipWith (fun p y => p - y) preds ys).sum

/-- Same loss gradient with respect to head weight `j`:
`(2 / (n * batchSize)) * Σ (p_k - y_k) * x_kj`. -/
def weightGrad (batchSize : ℚ) (preds ys : List ℚ) (x : List (List ℚ)) (j : ℕ) : ℚ :=
  2 / (preds.length * batchSize) *
    (List.zipWith (fun d row => d * (row.getD j 0))
      (List.zipWith (fun p y => p - y) preds ys) x).sum

/-- Autograd's write into one parameter: the raw gradient lands only when
`requires_grad` is set; a frozen parameter keeps gradient magnitude 0. -/
def writeGrad (p : Param) (raw : ℚ) : Param :=
  if p.requiresGrad then { p with grad := raw } else p

/-- One `loss.backward()` (line 318) on the classifier: encoder raw
gradients are whatever backpropagation through the (external) encoder
produces, supplied as `bertRaw`; head gradients follow the linear-head MSE
formulas above. -/
def backwardPass (c : Classifier) (bertRaw : List ℚ) (x : List (List ℚ)) (ys : List ℚ)
    (batchSize : ℚ) : Classifier :=
  { bertParams := List.zipWith writeGrad c.bertParams bertRaw,
    headWeight := (List.zipWith (fun p j => writeGrad p
      (weightGrad batchSize (headForward (c.headWeight.map Param.val) c.headBias.val x) ys x j))
      c.headWeight (List.range c.headWeight.length)),
    headBias := writeGrad c.headBias
      (biasGrad batchSize (headForward (c.headWeight.map Param.val) c.headBias.val x) ys) }

/-! ## The test action (`test`, lines 336–369)

Line 356 unpacks the return of `model_eval` into six names, but
`model_eval` (line 213) returns a four-tuple `(loss, sts_corr, y_pred,
sent_ids)`; line 358 unpacks `model_test_eval`'s two-tuple (line 241) into
three names.  In Python a tuple unpacking whose arities differ raises
`ValueError` at that statement.  We model returned tuples by their
component count and unpacking as an arity check. -/

inductive PyError where
  | valueErrorUnpack : PyError
  deriving DecidableEq, Repr

/-- Python tuple unpacking `n1, ..., nk = expr`: succeeds only when the
tuple's arity equals the number of target names. -/
def unpackTuple (names : ℕ) (vals : List ℚ) : Except PyError (List ℚ) :=
  if vals.length = names then Except.ok vals else Except.error PyError.valueErrorUnpack

/-- The four-component return of `model_eval` (line 213):
`(loss, sts_corr, y_pred, sent_ids)`, with each component collapsed to a
numeric tag — only the arity matters to the unpacking. -/
def model_eval_tuple (loss corr : ℚ) : List ℚ := [loss, corr, 0, 1]

/-- The two-component return of `model_test_eval` (line 241):
`(y_pred, sent_ids)`. -/
def model_test_eval_tuple : List ℚ := [0, 1]

/-- One output row of the prediction files (lines 364 and 369):
`f"{p} , {s} \n"`. -/
def predRow (pid score : String) : String := pid ++ " , " ++ score ++ " \n"

/-- The header line written at lines 362 and 367. -/
def predHeader : String := "id \t Predicted_Citation \n"

/-- The `test` action from line 356 on: unpack `model_eval`'s return into
six names, unpack `model_test_eval`'s return into three names, then write
the two files (modelled as their line lists).  The writes are dead code:
the first unpack always fails. -/
def test_action (devLoss devCorr : ℚ) (devIds testIds : List String)
    (devPreds testPreds : List String) : Except PyError (List String × List String) := do
  let _ ← unpackTuple 6 (model_eval_tuple devLoss devCorr)
  let _ ← unpackTuple 3 model_test_eval_tuple
  Except.ok (predHeader :: List.zipWith predRow devIds devPreds,
    predHeader :: List.zipWith predRow testIds testPreds)

/-! # Theorems -/

/-! ## Helper lemmas -/

theorem checkpointTrace_length (best : ℚ) (cs : List ℚ) :
    (checkpointTrace best cs).length = cs.length := by
  induction cs generalizing best with
  | nil => rfl
  | cons c cs ih => simp [checkpointTrace, ih]

theorem checkpointStep_snd (best c : ℚ) : (checkpointStep best c).2 = max best c := by
  unfold checkpointStep
  rcases le_or_lt c best with h | h
  · rw [if_neg (not_lt.mpr h)]
    exact (max_eq_left h).symm
  · rw [if_pos h]
    exact (max_eq_right h.le).symm

theorem checkpointTrace_get (best : ℚ) (cs : List ℚ) (i : ℕ) (h : i < cs.length) :
    (checkpointTrace best cs).get ⟨i, (checkpointTrace_length best cs).symm ▸ h⟩ =
      decide (prefixBest best cs i < cs.get ⟨i, h⟩) := by
  induction cs generalizing best i with
  | nil => exact absurd h (Nat.not_lt_zero i)
  | cons c cs ih =>
    cases i with
    | zero =>
      simp only [checkpointTrace, List.get, prefixBest, List.take, List.foldl]
      unfold checkpointStep
      rcases lt_or_le best c with hc | hc
      · rw [if_pos hc]; simp [hc]
      · rw [if_neg (not_lt.mpr hc)]; simp [not_lt.mpr hc]
    | succ i =>
      have h' : i < cs.length := Nat.lt_of_succ_lt_succ h
      simp only [checkpointTrace, List.get]
      rw [ih (checkpointStep best c).2 i h']
      congr 1
      simp only [prefixBest, List.take, List.foldl, checkpointStep_snd]

theorem foldl_max_lt_iff {α : Type} [LinearOrder α] (l : List α) (seed v : α) :
    l.foldl max seed < v ↔ seed < v ∧ ∀ a ∈ l, a < v := by
  induction l generalizing seed with
  | nil => simp
  | cons a l ih =>
    simp only [List.foldl, ih, max_lt_iff, List.mem_cons]
    constructor
    · rintro ⟨⟨h1, h2⟩, h3⟩
      exact ⟨h1, fun b hb => hb.elim (fun e => e ▸ h2) (h3 b)⟩
    · rintro ⟨h1, h2⟩
      exact ⟨⟨h1, h2 a (Or.inl rfl)⟩, fun b hb => h2 b (Or.inr hb)⟩

theorem forall_take_lt_iff (cs : List ℚ) (i : ℕ) (v : ℚ) (h : i ≤ cs.length) :
    (∀ a ∈ cs.take i, a < v) ↔ ∀ j, j < i → cs.getD j 0 < v := by
  constructor
  · intro H j hj
    have hjl : j < cs.length := lt_of_lt_of_le hj h
    have hjt : j < (cs.take i).length := by
      simp only [List.length_take]
      omega
    have e : (cs.take i).get ⟨j, hjt⟩ = cs.get ⟨j, hjl⟩ := by
      simp only [List.get_eq_getElem, List.getElem_take]
    have hm : (cs.take i).get ⟨j, hjt⟩ ∈ cs.take i := List.get_mem _ _ hjt
    have := H _ hm
    rw [e] at this
    rwa [List.getD_eq_getElem _ _ hjl]
  · intro H a ha
    obtain ⟨j, hjt, rfl⟩ := List.mem_iff_getElem.mp ha
    have hj : j < i := by
      have := hjt
      simp only [List.length_take] at this
      omega
    have hjl : j < cs.length := by
      have := hjt
      simp only [List.length_take] at this
      omega
    rw [List.getElem_take]
    have := H j hj
    rwa [List.getD_eq_getElem _ _ hjl] at this

theorem evalFold_loss (batchSize : ℚ) (batches : List EvalBatch) :
    ∀ (st : ModelState) (a : ℚ) (p : List ℚ) (s : List String),
      (batches.foldl (evalStep batchSize) (st, a, p, s)).2.1 =
        a + (batches.map (fun b => mse_loss b.preds b.labels / batchSize)).sum := by
  induction batches with
  | nil => intro st a p s; simp
  | cons b bs ih =>
    intro st a p s
    simp only [List.foldl, List.map, List.sum_cons, evalStep]
    rw [ih]
    ring

theorem evalFold_state (batchSize : ℚ) (batches : List EvalBatch) :
    ∀ (st : ModelState) (a : ℚ) (p : List ℚ) (s : List String),
      (batches.foldl (evalStep batchSize) (st, a, p, s)).1 = st := by
  induction batches with
  | nil => intro st a p s; rfl
  | cons b bs ih =>
    intro st a p s
    simp only [List.foldl, evalStep]
    exact ih st _ _ _

theorem evalLoss_eq_sum (batchSize : ℚ) (batches : List EvalBatch) :
    evalLoss batchSize batches =
      (batches.map (fun b => mse_loss b.preds b.labels / batchSize)).sum := by
  simp only [evalLoss, model_eval]
  rw [evalFold_loss]
  ring

/-! ## C1 — checkpoint persistence indices -/

/-- C1, counterexample to the claim as stated: with the single held-out
correlation sequence `[-1/2]`, index 0 is a strict running maximum of the
sequence (there is no earlier value), yet the Checkpoint Manager does not
persist, because `-1/2 > 0` fails against the initial best of `0`. -/
theorem claim1_checkpoint_counterexample :
    specStrictRunMaxFlags [-(1 : ℚ)/2] = [true] ∧
    checkpointTrace best_dev_acc [-(1 : ℚ)/2] = [false] := by
  constructor
  · norm_num [specStrictRunMaxFlags, List.mapIdx, List.mapIdx.go]
  · norm_num [best_dev_acc, checkpointTrace, checkpointStep]

/-- C1, amended: the Checkpoint Manager persists exactly at those indices
`i` where `c_i` strictly exceeds `0` and every earlier value — i.e. `c_i`
is a strict running maximum of the sequence prefixed with the sentinel `0`;
ties and non-improvements (and values `≤ 0`) never persist, the comparison
being a strict greater-than against a best-so-far initialized to `0`. -/
theorem claim1_checkpoint_amended (cs : List ℚ) (i : ℕ) (h : i < cs.length) :
    (checkpointTrace best_dev_acc cs)[i]? = some true ↔
      (0 < cs.getD i 0 ∧ ∀ j, j < i → cs.getD j 0 < cs.getD i 0) := by
  have hlen : i < (checkpointTrace best_dev_acc cs).length := by
    rw [checkpointTrace_length]
    exact h
  rw [List.getElem?_eq_getElem hlen, Option.some_inj]
  have hget : (checkpointTrace best_dev_acc cs)[i] =
      (checkpointTrace best_dev_acc cs).get ⟨i, hlen⟩ := rfl
  rw [hget, checkpointTrace_get best_dev_acc cs i h, decide_eq_true_eq]
  unfold prefixBest best_dev_acc
  rw [foldl_max_lt_iff, forall_take_lt_iff cs i _ h.le]
  have hv : cs.get ⟨i, h⟩ = cs.getD i 0 := (List.getD_eq_getElem _ _ h).symm
  rw [hv]

/-- Witness for the amended C1 at the concrete run `[1/2, 1/4, 3/4]`,
index 2. -/
theorem claim1_checkpoint_amended_witness :
    2 < ([1/2, 1/4, 3/4] : List ℚ).length ∧
    ((checkpointTrace best_dev_acc [1/2, 1/4, 3/4])[2]? = some true ↔
      (0 < ([1/2, 1/4, 3/4] : List ℚ).getD 2 0 ∧
        ∀ j, j < 2 →
          ([1/2, 1/4, 3/4] : List ℚ).getD j 0 < ([1/2, 1/4, 3/4] : List ℚ).getD 2 0)) :=
  ⟨by norm_num, claim1_checkpoint_amended [1/2, 1/4, 3/4] 2 (by norm_num)⟩

/-! ## C2 — the Evaluator's returned loss -/

/-- C2, counterexample to the claim as stated: with batch size 1 and two
batches each of one prediction `0` against label `1`, each per-batch loss is
`1`, the claimed mean is `1`, but `model_eval` returns the sum `2`. -/
theorem claim2_eval_loss_counterexample :
    evalLoss 1 [{ preds := [0], labels := [1], ids := ["a"] },
                { preds := [0], labels := [1], ids := ["b"] }] = 2 ∧
    specMeanLoss 1 [{ preds := [0], labels := [1], ids := ["a"] },
                    { preds := [0], labels := [1], ids := ["b"] }] = 1 ∧
    (2 : ℚ) ≠ 1 := by
  refine ⟨?_, ?_, by norm_num⟩
  · norm_num [evalLoss, model_eval, List.foldl, evalStep, mse_loss]
  · norm_num [specMeanLoss, mse_loss]

/-- C2, amended: the loss `model_eval` returns is the SUM over the pass's
batches of the per-batch MSE divided by the configured batch size — on a
non-empty pass, the number of batches times the claimed mean. -/
theorem claim2_eval_loss_amended (batchSize : ℚ) (batches : List EvalBatch) :
    evalLoss batchSize batches =
      (batches.map (fun b => mse_loss b.preds b.labels / batchSize)).sum ∧
    (batches ≠ [] →
      evalLoss batchSize batches = batches.length * specMeanLoss batchSize batches) := by
  refine ⟨evalLoss_eq_sum batchSize batches, fun hne => ?_⟩
  have hlen : ((batches.length : ℚ)) ≠ 0 := by
    have : 0 < batches.length := List.length_pos.mpr hne
    positivity
  rw [evalLoss_eq_sum, specMeanLoss, mul_comm, div_mul_cancel₀ _ hlen]

/-- Witness for the amended C2 on a one-batch pass with batch size 2. -/
theorem claim2_eval_loss_witness :
    ([{ preds := [(1 : ℚ)], labels := [0], ids := ["x"] }] : List EvalBatch) ≠ [] ∧
    evalLoss 2 [{ preds := [(1 : ℚ)], labels := [0], ids := ["x"] }] =
      (([{ preds := [(1 : ℚ)], labels := [0], ids := ["x"] }] : List EvalBatch).length) *
        specMeanLoss 2 [{ preds := [(1 : ℚ)], labels := [0], ids := ["x"] }] :=
  ⟨by simp, (claim2_eval_loss_amended 2 _).2 (by simp)⟩

/-! ## C10 — pre-epoch evaluation pass -/

/-- C10: `train` evaluates both splits before the first epoch (the trace
starts with those two events); the entire trace — in particular every
checkpoint decision — is independent of the two pre-epoch correlations; and
no checkpoint is persisted before the first epoch has trained and been
re-evaluated (no save among the first five events). -/
theorem claim10_pre_epoch_eval (p q p2 q2 : ℚ) (cs : List ℚ) :
    (trainTrace p q cs).take 2 = [TrainEvent.evalTrain, TrainEvent.evalDev] ∧
    trainTrace p q cs = trainTrace p2 q2 cs ∧
    TrainEvent.saveCheckpoint ∉ (trainTrace p q cs).take 5 := by
  refine ⟨rfl, rfl, ?_⟩
  cases cs with
  | nil =>
    simp [trainTrace, epochLoop]
  | cons c cs =>
    have e : trainTrace p q (c :: cs) =
        [TrainEvent.evalTrain, TrainEvent.evalDev, TrainEvent.epochTrained 0,
         TrainEvent.evalTrain, TrainEvent.evalDev] ++
          ((if c > best_dev_acc then [TrainEvent.saveCheckpoint] else []) ++
            epochLoop 1 (checkpointStep best_dev_acc c).2 cs) := by
      simp [trainTrace, epochLoop, epochEvents]
    rw [e, List.take_append_of_le_length (by simp)]
    simp

/-! ## C5 — Evaluator frame effect -/

/-- C5, counterexample to the claim as stated: call the Evaluator while the
dropout-active flag is `true`; on return the flag is `false`, not the
pre-call value — `model_eval` never restores it (`model.train()` is issued
by the Training Loop at each epoch head, line 298, not by the Evaluator). -/
theorem claim5_eval_frame_counterexample :
    (({ params := [3], training := true } : ModelState)).training = true ∧
    ((model_eval 1 [] { params := [3], training := true } { moments := [] }).2.1).training
      = false := by
  exact ⟨rfl, rfl⟩

/-- C5, amended: every Evaluator call mutates model state only through the
dropout-active flag, which it sets to `false` and leaves `false` on return
(it does not restore the pre-call value); all parameters and the optimizer
state are unchanged by the call. -/
theorem claim5_eval_frame_amended (batchSize : ℚ) (batches : List EvalBatch)
    (m : ModelState) (o : OptState) :
    ((model_eval batchSize batches m o).2.1).params = m.params ∧
    ((model_eval batchSize batches m o).2.1).training = false ∧
    (model_eval batchSize batches m o).2.2 = o := by
  have hst := evalFold_state batchSize batches { m with training := false } 0 [] []
  simp only [model_eval]
  rw [hst]
  simp

/-! ## C3 — the test action's prediction files -/

/-- C3: the `test` action never completes — every invocation aborts with
the tuple-unpacking `ValueError` at line 356, where `model_eval`'s
four-tuple return is unpacked into six names — so no prediction output file
is ever written. -/
theorem claim3_test_crash (devLoss devCorr : ℚ)
    (devIds testIds devPreds testPreds : List String) :
    test_action devLoss devCorr devIds testIds devPreds testPreds =
      Except.error PyError.valueErrorUnpack := rfl

/-! ## C9 — hard-coded data slices -/

/-- C9: for any loaded file contents, the train action trains on exactly the
first 100 training records, holds out exactly the dev records at indices
10000–10009, and the test action truncates the dev and test splits to their
first 20 records (element-by-element characterization of all four slices). -/
theorem claim9_hardcoded_slices {α : Type} (ltrain ldev ldev2 ltest : List α) :
    (∀ i : ℕ, (trainSlice ltrain)[i]? = if i < 100 then ltrain[i]? else none) ∧
    (∀ i : ℕ, (devHeldOutSlice ldev)[i]? = if i < 10 then ldev[10000 + i]? else none) ∧
    (∀ i : ℕ, (testDevSlice ldev2)[i]? = if i < 20 then ldev2[i]? else none) ∧
    (∀ i : ℕ, (testTestSlice ltest)[i]? = if i < 20 then ltest[i]? else none) := by
  refine ⟨fun i => ?_, fun i => ?_, fun i => ?_, fun i => ?_⟩
  · simp [trainSlice, List.getElem?_take]
  · simp [devHeldOutSlice, List.getElem?_take, List.getElem?_drop]
  · simp [testDevSlice, List.getElem?_take]
  · simp [testTestSlice, List.getElem?_take]

/-! ## C4 — Pearson correlation values -/

/-- C4: the correlation of lines 205–206 is `1` for predictions `[1,2,3]`
against labels `[1,2,3]`, `-1` for predictions `[3,2,1]` against labels
`[1,2,3]`, undefined (`NaN`, modelled `none`) for constant predictions
`[5,5,5]`, and more generally undefined whenever either sequence has zero
variance, rather than an error. -/
theorem claim4_pearson :
    corrcoef10 [1, 2, 3] [1, 2, 3] = some 1 ∧
    corrcoef10 [3, 2, 1] [1, 2, 3] = some (-1) ∧
    corrcoef10 [5, 5, 5] [1, 2, 3] = none ∧
    ∀ x y : List ℝ, (sprod x x = 0 ∨ sprod y y = 0) → corrcoef10 x y = none := by
  have h123 : sprod [(1 : ℝ), 2, 3] [(1 : ℝ), 2, 3] = 2 := by
    norm_num [sprod, centered, listMean]
  have h321 : sprod [(3 : ℝ), 2, 1] [(3 : ℝ), 2, 1] = 2 := by
    norm_num [sprod, centered, listMean]
  have hx : sprod [(3 : ℝ), 2, 1] [(1 : ℝ), 2, 3] = -2 := by
    norm_num [sprod, centered, listMean]
  have h555 : sprod [(5 : ℝ), 5, 5] [(5 : ℝ), 5, 5] = 0 := by
    norm_num [sprod, centered, listMean]
  have hgen : ∀ x y : List ℝ, (sprod x x = 0 ∨ sprod y y = 0) → corrcoef10 x y = none := by
    intro x y h
    unfold corrcoef10
    rw [if_pos h]
  have hs2 : Real.sqrt 2 * Real.sqrt 2 = 2 := Real.mul_self_sqrt (by norm_num)
  refine ⟨?_, ?_, hgen _ _ (Or.inl h555), hgen⟩
  · unfold corrcoef10
    rw [if_neg (by rw [h123]; norm_num)]
    rw [h123, hs2]
    norm_num
  · unfold corrcoef10
    rw [if_neg (by rw [h321, h123]; norm_num)]
    rw [h321, h123, hx, hs2]
    norm_num

/-- Witness for the zero-variance branch of C4 at the concrete constant
sequence `[2,2]` against `[1,2]`. -/
theorem claim4_pearson_witness :
    (sprod [(2 : ℝ), 2] [(2 : ℝ), 2] = 0 ∨ sprod [(1 : ℝ), 2] [(1 : ℝ), 2] = 0) ∧
    corrcoef10 [(2 : ℝ), 2] [(1 : ℝ), 2] = none :=
  ⟨Or.inl (by norm_num [sprod, centered, listMean]),
   claim4_pearson.2.2.2 [(2 : ℝ), 2] [(1 : ℝ), 2]
     (Or.inl (by norm_num [sprod, centered, listMean]))⟩

/-! ## C8 — record loading errors -/

theorem LoadError.eq_malformed (e : LoadError) : e = LoadError.malformedRecord := by
  cases e
  rfl

theorem loadRow_error_iff (r : RawRecord) :
    loadRow r = Except.error LoadError.malformedRecord ↔
      r.sentence = none ∨ r.recId = none ∨ r.sentiment = none ∨
        ∃ v, r.sentiment = some v ∧ pyInt v.trim = none := by
  rcases r with ⟨s, l, i⟩
  cases s <;> cases l <;> cases i <;> simp [loadRow]
  case some.some.some sv lv iv =>
    cases hp : pyInt lv.trim <;> simp [hp]

theorem loadRowTest_error_iff (r : RawRecord) :
    loadRowTest r = Except.error LoadError.malformedRecord ↔
      r.sentence = none ∨ r.recId = none := by
  rcases r with ⟨s, l, i⟩
  cases s <;> cases i <;> simp [loadRowTest]

theorem load_data_error_iff (rows : List RawRecord) :
    load_data rows = Except.error LoadError.malformedRecord ↔
      ∃ r ∈ rows, loadRow r = Except.error LoadError.malformedRecord := by
  induction rows with
  | nil => simp [load_data]
  | cons r rs ih =>
    cases hr : loadRow r with
    | error e =>
      rw [LoadError.eq_malformed e] at hr
      simp [load_data, hr]
    | ok p =>
      cases hd : load_data rs with
      | error e =>
        rw [LoadError.eq_malformed e] at hd
        simp only [load_data, hr, hd]
        simp only [hd] at ih
        simp [← ih, hr]
      | ok ps =>
        simp only [load_data, hr, hd]
        simp only [hd] at ih
        simp [← ih, hr]

theorem load_data_test_error_iff (rows : List RawRecord) :
    load_data_test rows = Except.error LoadError.malformedRecord ↔
      ∃ r ∈ rows, loadRowTest r = Except.error LoadError.malformedRecord := by
  induction rows with
  | nil => simp [load_data_test]
  | cons r rs ih =>
    cases hr : loadRowTest r with
    | error e =>
      rw [LoadError.eq_malformed e] at hr
      simp [load_data_test, hr]
    | ok p =>
      cases hd : load_data_test rs with
      | error e =>
        rw [LoadError.eq_malformed e] at hd
        simp only [load_data_test, hr, hd]
        simp only [hd] at ih
        simp [← ih, hr]
      | ok ps =>
        simp only [load_data_test, hr, hd]
        simp only [hd] at ih
        simp [← ih, hr]

theorem loadRowTest_sentiment_irrelevant (r : RawRecord) :
    loadRowTest { r with sentiment := none } = loadRowTest r := by
  rcases r with ⟨s, l, i⟩
  rfl

/-- C8: in train/valid mode, loading fails with the `MalformedRecordError`
(aborting with no partial result) exactly when some record misses one of the
required fields `sentence`, `sentiment`, `id`, or carries a sentiment that
is not integer-parseable; in test mode only `sentence` and `id` are
required, and the sentiment field is never even read (erasing it changes
nothing). -/
theorem claim8_load_errors (rows : List RawRecord) :
    (load_data rows = Except.error LoadError.malformedRecord ↔
      ∃ r ∈ rows, r.sentence = none ∨ r.recId = none ∨ r.sentiment = none ∨
        ∃ v, r.sentiment = some v ∧ pyInt v.trim = none) ∧
    (load_data_test rows = Except.error LoadError.malformedRecord ↔
      ∃ r ∈ rows, r.sentence = none ∨ r.recId = none) ∧
    load_data_test rows =
      load_data_test (rows.map (fun r => { r with sentiment := none })) := by
  refine ⟨?_, ?_, ?_⟩
  · rw [load_data_error_iff]
    constructor
    · rintro ⟨r, hr, he⟩
      exact ⟨r, hr, (loadRow_error_iff r).mp he⟩
    · rintro ⟨r, hr, he⟩
      exact ⟨r, hr, (loadRow_error_iff r).mpr he⟩
  · rw [load_data_test_error_iff]
    constructor
    · rintro ⟨r, hr, he⟩
      exact ⟨r, hr, (loadRowTest_error_iff r).mp he⟩
    · rintro ⟨r, hr, he⟩
      exact ⟨r, hr, (loadRowTest_error_iff r).mpr he⟩
  · induction rows with
    | nil => rfl
    | cons r rs ih =>
      simp only [List.map, load_data_test, loadRowTest_sentiment_irrelevant, ih]

/-! ## C6 — batch padding invariants -/

theorem le_foldl_max {α : Type} [LinearOrder α] {l : List α} {a : α} (seed : α)
    (h : a ∈ l) : a ≤ l.foldl max seed := by
  by_contra hc
  push_neg at hc
  rw [foldl_max_lt_iff] at hc
  exact absurd (hc.2 a h) (lt_irrefl a)

theorem foldl_max_seed_or_mem {α : Type} [LinearOrder α] (l : List α) (seed : α) :
    l.foldl max seed = seed ∨ l.foldl max seed ∈ l := by
  induction l generalizing seed with
  | nil => exact Or.inl rfl
  | cons a l ih =>
    simp only [List.foldl]
    rcases ih (max seed a) with h | h
    · rw [h]
      rcases le_total a seed with hc | hc
      · left
        exact max_eq_left hc
      · right
        rw [max_eq_right hc]
        exact List.mem_cons_self a l
    · right
      exact List.mem_cons_of_mem a h

theorem getD_map {α β : Type} (f : α → β) (l : List α) (i : ℕ) (dA : α) (dB : β)
    (h : i < l.length) : (l.map f).getD i dB = f (l.getD i dA) := by
  rw [List.getD_eq_getElem _ _ (by simpa using h), List.getD_eq_getElem _ _ h]
  simp

theorem getD_replicate_self {α : Type} (n i : ℕ) (a d : α) (h : i < n) :
    (List.replicate n a).getD i d = a := by
  rw [List.getD_eq_getElem _ _ (by simpa using h)]
  simp

theorem length_le_batchMaxLen (toks : List (List ℕ)) :
    ∀ t ∈ toks, t.length ≤ batchMaxLen toks := by
  intro t ht
  exact le_foldl_max 0 (List.mem_map_of_mem List.length ht)

theorem exists_length_eq_batchMaxLen (toks : List (List ℕ)) (h : toks ≠ []) :
    ∃ t ∈ toks, t.length = batchMaxLen toks := by
  rcases toks with _ | ⟨t0, ts⟩
  · exact absurd rfl h
  · rcases foldl_max_seed_or_mem (((t0 :: ts).map List.length)) 0 with h0 | hmem
    · refine ⟨t0, List.mem_cons_self t0 ts, ?_⟩
      have hle : t0.length ≤ batchMaxLen (t0 :: ts) :=
        length_le_batchMaxLen _ t0 (List.mem_cons_self t0 ts)
      have h0' : batchMaxLen (t0 :: ts) = 0 := h0
      omega
    · rcases List.mem_map.mp hmem with ⟨t, ht, hlen⟩
      exact ⟨t, ht, hlen⟩

/-- C6 (spec-modelled tokenizer): for every assembled batch, every padded
row (ids and mask) has width equal to the longest token sequence of that
batch (batch-local dynamic padding: the width is bounded by and attained
within the batch), the attention mask is `1` exactly at real-token
positions, padded positions of the token ids hold the designated pad id,
and real positions hold the example's own tokens. -/
theorem claim6_padding (padId : ℕ) (toks : List (List ℕ)) :
    (∀ row ∈ (pad_data padId toks).1, row.length = batchMaxLen toks) ∧
    (∀ row ∈ (pad_data padId toks).2, row.length = batchMaxLen toks) ∧
    (∀ t ∈ toks, t.length ≤ batchMaxLen toks) ∧
    (toks ≠ [] → ∃ t ∈ toks, t.length = batchMaxLen toks) ∧
    (∀ i j : ℕ, i < toks.length → j < batchMaxLen toks →
      (((pad_data padId toks).2.getD i []).getD j 2 = 1 ↔ j < (toks.getD i []).length)) ∧
    (∀ i j : ℕ, i < toks.length → j < batchMaxLen toks → (toks.getD i []).length ≤ j →
      ((pad_data padId toks).1.getD i []).getD j (padId + 1) = padId) ∧
    (∀ i j : ℕ, i < toks.length → j < (toks.getD i []).length →
      ((pad_data padId toks).1.getD i []).getD j (padId + 1) = (toks.getD i []).getD j 0) := by
  have hM : (toks.map List.length).foldl max 0 = batchMaxLen toks := rfl
  refine ⟨?_, ?_, length_le_batchMaxLen toks, exists_length_eq_batchMaxLen toks, ?_, ?_, ?_⟩
  · intro row hrow
    simp only [pad_data, tokenizerPad, List.mem_map] at hrow
    obtain ⟨t, ht, rfl⟩ := hrow
    have := length_le_batchMaxLen toks t ht
    simp only [List.length_append, List.length_replicate, hM]
    omega
  · intro row hrow
    simp only [pad_data, tokenizerPad, List.mem_map] at hrow
    obtain ⟨t, ht, rfl⟩ := hrow
    have := length_le_batchMaxLen toks t ht
    simp only [List.length_append, List.length_replicate, hM]
    omega
  · intro i j hi hj
    have ht : toks.getD i [] ∈ toks := by
      rw [List.getD_eq_getElem _ _ hi]
      exact List.getElem_mem hi
    have htM := length_le_batchMaxLen toks _ ht
    have houter : (pad_data padId toks).2.getD i [] =
        List.replicate (toks.getD i []).length 1 ++
          List.replicate (batchMaxLen toks - (toks.getD i []).length) 0 := by
      simp only [pad_data, tokenizerPad]
      rw [getD_map _ _ _ ([] : List ℕ) _ hi, hM]
    rw [houter]
    rcases lt_or_le j (toks.getD i []).length with hcase | hcase
    · rw [List.getD_append _ _ _ _ (by simpa using hcase),
        getD_replicate_self _ _ _ _ hcase]
      exact iff_of_true rfl hcase
    · rw [List.getD_append_right _ _ _ _ (by simpa using hcase)]
      simp only [List.length_replicate]
      rw [getD_replicate_self _ _ _ _ (by omega)]
      exact iff_of_false (by norm_num) (by omega)
  · intro i j hi hj hpad
    have houter : (pad_data padId toks).1.getD i [] =
        toks.getD i [] ++
          List.replicate (batchMaxLen toks - (toks.getD i []).length) padId := by
      simp only [pad_data, tokenizerPad]
      rw [getD_map _ _ _ ([] : List ℕ) _ hi, hM]
    rw [houter, List.getD_append_right _ _ _ _ (by simpa using hpad),
      getD_replicate_self _ _ _ _ (by omega)]
  · intro i j hi hj
    have houter : (pad_data padId toks).1.getD i [] =
        toks.getD i [] ++
          List.replicate (batchMaxLen toks - (toks.getD i []).length) padId := by
      simp only [pad_data, tokenizerPad]
      rw [getD_map _ _ _ ([] : List ℕ) _ hi, hM]
    rw [houter, List.getD_append _ _ _ _ (by simpa using hj),
      List.getD_eq_getElem _ _ hj, List.getD_eq_getElem _ _ hj]

/-- Witness for C6 on the concrete batch `[[5,6],[7]]` with pad id `0`:
the batch is non-empty and its padded width `2` is attained. -/
theorem claim6_padding_witness :
    ([[5, 6], [7]] : List (List ℕ)) ≠ [] ∧
    ∃ t ∈ ([[5, 6], [7]] : List (List ℕ)), t.length = batchMaxLen [[5, 6], [7]] :=
  ⟨by simp, (claim6_padding 0 [[5, 6], [7]]).2.2.2.1 (by simp)⟩

/-! ## C7 — fine-tune mode and trainability -/

theorem writeGrad_requiresGrad (p : Param) (raw : ℚ) :
    (writeGrad p raw).requiresGrad = p.requiresGrad := by
  unfold writeGrad
  split <;> rfl

theorem zipWith_writeGrad_frozen (vals raw : List ℚ) :
    ∀ p ∈ List.zipWith writeGrad
      (vals.map (fun v => ({ val := v, requiresGrad := false, grad := 0 } : Param))) raw,
      p.requiresGrad = false ∧ p.grad = 0 := by
  induction vals generalizing raw with
  | nil => simp
  | cons v vs ih =>
    cases raw with
    | nil => simp
    | cons r rs =>
      intro p hp
      simp only [List.map, List.zipWith, List.mem_cons] at hp
      rcases hp with hp | hp
      · subst hp
        constructor <;> simp [writeGrad]
      · exact ih rs p hp

theorem zipWith_writeGrad_flag {β : Type} (b : Bool) (g : β → ℚ) :
    ∀ (ps : List Param) (js : List β), (∀ p ∈ ps, p.requiresGrad = b) →
      ∀ p ∈ List.zipWith (fun p j => writeGrad p (g j)) ps js, p.requiresGrad = b := by
  intro ps
  induction ps with
  | nil => intro js h p hp; simp at hp
  | cons q qs ih =>
    intro js h p hp
    cases js with
    | nil => simp at hp
    | cons j js =>
      simp only [List.zipWith, List.mem_cons] at hp
      rcases hp with hp | hp
      · subst hp
        rw [writeGrad_requiresGrad]
        exact h q (List.mem_cons_self q qs)
      · exact ih js (fun p hp2 => h p (List.mem_cons_of_mem q hp2)) p hp

theorem initClassifier_headWeight_flags (mode : FineTuneMode) (bertVals wVals : List ℚ)
    (bVal : ℚ) :
    ∀ p ∈ (initClassifier mode bertVals wVals bVal).headWeight, p.requiresGrad = true := by
  intro p hp
  simp only [initClassifier, List.mem_map] at hp
  obtain ⟨v, _, rfl⟩ := hp
  rfl

theorem initClassifier_bert_flags (mode : FineTuneMode) (bertVals wVals : List ℚ)
    (bVal : ℚ) :
    ∀ p ∈ (initClassifier mode bertVals wVals bVal).bertParams,
      p.requiresGrad = bertGradFlag mode := by
  intro p hp
  simp only [initClassifier, List.mem_map] at hp
  obtain ⟨v, _, rfl⟩ := hp
  rfl

theorem map_val_map_mk (wVals : List ℚ) :
    ((wVals.map (fun v => ({ val := v, requiresGrad := true, grad := 0 } : Param))).map
      Param.val) = wVals := by
  induction wVals with
  | nil => rfl
  | cons v vs ih => simp only [List.map, ih]

/-- C7: after one backward pass on a model constructed in head-only
(`last-linear-layer`) mode, every encoder parameter has gradient tracking
disabled and gradient magnitude zero while (for a batch whose residuals do
not cancel) the head bias carries a non-zero gradient; in `full-model` mode
every parameter — encoder and head — is trainable, and the backward pass
never alters any parameter's gradient-tracking flag. -/
theorem claim7_fine_tune_mode (bertVals wVals : List ℚ) (bVal : ℚ) (bertRaw : List ℚ)
    (x : List (List ℚ)) (ys : List ℚ) (batchSize : ℚ)
    (hS : (List.zipWith (fun p y => p - y) (headForward wVals bVal x) ys).sum ≠ 0)
    (hbs : 0 < batchSize) (hx : x ≠ []) :
    (∀ p ∈ (backwardPass (initClassifier FineTuneMode.lastLinearLayer bertVals wVals bVal)
        bertRaw x ys batchSize).bertParams, p.requiresGrad = false ∧ p.grad = 0) ∧
    (backwardPass (initClassifier FineTuneMode.lastLinearLayer bertVals wVals bVal)
        bertRaw x ys batchSize).headBias.grad ≠ 0 ∧
    (∀ p ∈ (backwardPass (initClassifier FineTuneMode.lastLinearLayer bertVals wVals bVal)
        bertRaw x ys batchSize).headWeight, p.requiresGrad = true) ∧
    (backwardPass (initClassifier FineTuneMode.lastLinearLayer bertVals wVals bVal)
        bertRaw x ys batchSize).headBias.requiresGrad = true ∧
    (∀ p ∈ (backwardPass (initClassifier FineTuneMode.fullModel bertVals wVals bVal)
        bertRaw x ys batchSize).bertParams, p.requiresGrad = true) ∧
    (∀ p ∈ (backwardPass (initClassifier FineTuneMode.fullModel bertVals wVals bVal)
        bertRaw x ys batchSize).headWeight, p.requiresGrad = true) ∧
    (backwardPass (initClassifier FineTuneMode.fullModel bertVals wVals bVal)
        bertRaw x ys batchSize).headBias.requiresGrad = true := by
  have hgradval : (backwardPass (initClassifier FineTuneMode.lastLinearLayer bertVals wVals bVal)
      bertRaw x ys batchSize).headBias.grad =
        biasGrad batchSize (headForward wVals bVal x) ys := by
    simp only [backwardPass, initClassifier, map_val_map_mk]
    simp [writeGrad]
  refine ⟨?_, ?_, ?_, ?_, ?_, ?_, ?_⟩
  · exact zipWith_writeGrad_frozen bertVals bertRaw
  · rw [hgradval]
    unfold biasGrad
    have hn : (0 : ℚ) < (headForward wVals bVal x).length := by
      simp only [headForward, List.length_map]
      exact_mod_cast List.length_pos.mpr hx
    exact mul_ne_zero (div_ne_zero two_ne_zero (ne_of_gt (mul_pos hn hbs))) hS
  · intro p hp
    exact zipWith_writeGrad_flag true _ _ _
      (initClassifier_headWeight_flags FineTuneMode.lastLinearLayer bertVals wVals bVal) p hp
  · simp only [backwardPass, writeGrad_requiresGrad]
    rfl
  · intro p hp
    exact zipWith_writeGrad_flag true (fun r : ℚ => r) _ _
      (initClassifier_bert_flags FineTuneMode.fullModel bertVals wVals bVal) p hp
  · intro p hp
    exact zipWith_writeGrad_flag true _ _ _
      (initClassifier_headWeight_flags FineTuneMode.fullModel bertVals wVals bVal) p hp
  · simp only [backwardPass, writeGrad_requiresGrad]
    rfl

/-- Witness for C7 on the one-example batch `x = [[1]]`, labels `[0]`, head
`w = [1], b = 0`, batch size 1: the residual sum is `1 ≠ 0` and the head
bias indeed receives a non-zero gradient while the encoder stays frozen. -/
theorem claim7_fine_tune_mode_witness :
    (List.zipWith (fun p y => p - y) (headForward [(1 : ℚ)] 0 [[1]]) [0]).sum ≠ 0 ∧
    (0 : ℚ) < 1 ∧
    ([[(1 : ℚ)]] : List (List ℚ)) ≠ [] ∧
    (backwardPass (initClassifier FineTuneMode.lastLinearLayer [1] [(1 : ℚ)] 0)
        [7] [[1]] [0] 1).headBias.grad ≠ 0 :=
  ⟨by norm_num [headForward, dotProd], by norm_num, by simp,
   (claim7_fine_tune_mode [1] [(1 : ℚ)] 0 [7] [[1]] [0] 1
     (by norm_num [headForward, dotProd]) (by norm_num) (by simp)).2.1⟩

end Classifier224n
